import Mathlib

/- Shallow embedding of pysis/sugar.py: the point_info adapter and the
   image_to_ground / ground_to_image wrappers.  The external ISIS tools
   (campt and mappt) are modelled as oracle functions supplied by the
   caller; Python exceptions are modelled through an Except type, the
   Python value None through an explicit constructor, and coordinates
   through rational numbers. -/

deriving instance DecidableEq for Except

namespace Pysis

/-- Python str.lower, applied characterwise to the string's data (the
inputs of interest are ASCII point-type tags). -/
def lowerStr (s : String) : String :=
  String.mk (s.data.map Char.toLower)

/-- A parsed PVL value: a bare number, a number carrying a unit string
(a pvl Quantity), a string, or null (Python None). -/
inductive PvlValue where
  | num : ℚ → PvlValue
  | quantity : ℚ → String → PvlValue
  | str : String → PvlValue
  | null : PvlValue
deriving DecidableEq

/-- A Python dict produced from a PVL group: an association list from
field names to values. -/
abbrev ResultDict := List (String × PvlValue)

/-- Python d[k] returning an Option (none models a KeyError). -/
def getItem (d : ResultDict) (k : String) : Option PvlValue :=
  (d.find? (fun p => p.1 == k)).map (fun p => p.2)

/-- One GroundPoint block of a campt response: the Sample and Line
fields, the nullable Error field, and the remaining fields (latitude,
longitude, and so on). -/
structure GroundPoint where
  sample : ℚ
  line : ℚ
  error : Option String
  extra : List (String × PvlValue)
deriving DecidableEq

/-- Python dict(groupblock): the block flattened to an association list. -/
def GroundPoint.toDict (gp : GroundPoint) : ResultDict :=
  ("Sample", PvlValue.num gp.sample) ::
  ("Line", PvlValue.num gp.line) ::
  ("Error", (match gp.error with
             | some e => PvlValue.str e
             | none => PvlValue.null)) ::
  gp.extra

/-- A cube file, reduced to the only fact point_info reads from its
label: whether the IsisCube group contains a Mapping group. -/
structure Cube where
  hasMapping : Bool
deriving DecidableEq

/-- The arguments of one isis.mappt invocation in the projected branch.
For pointType "ground" the x and y fields are the longitude and latitude
keywords (with coordsys UNIVERSAL); for "image" they are the sample and
line keywords. -/
structure MapptCall where
  cube : Cube
  x : ℚ
  y : ℚ
  pointType : String
  allowOutside : Bool
deriving DecidableEq

/-- The arguments of one isis.campt invocation in the unprojected branch.
Each pair in coordlist is one "a, b" line of the temporary coordinate
file, in the order written. -/
structure CamptCall where
  cube : Cube
  coordlist : List (ℚ × ℚ)
  allowOutside : Bool
  coordtype : String
deriving DecidableEq

/-- One external-tool invocation performed during a call. -/
inductive Invocation where
  | mappt : MapptCall → Invocation
  | campt : CamptCall → Invocation
deriving DecidableEq

/-- The allowoutside flag that an invocation carried. -/
def Invocation.allowFlag : Invocation → Bool
  | .mappt c => c.allowOutside
  | .campt c => c.allowOutside

/-- The value point_info hands back on a non-raising return: a single
result dict, a list of result dicts, or Python None (returned after a
caught ProcessError). -/
inductive PointInfoRet where
  | single : ResultDict → PointInfoRet
  | multi : List ResultDict → PointInfoRet
  | noneVal : PointInfoRet
deriving DecidableEq

/-- The Python exceptions the embedded functions can raise. -/
inductive PyExc where
  | invalidPointType (pt : String)
  | typeError
  | keyError (k : String)
  | attributeError
  | valueError
  | processError (stderr : String)
  | wrappedRes (r : PointInfoRet)
deriving DecidableEq

/-- An x or y argument of point_info: a single number or a sequence. -/
inductive Coord where
  | num : ℚ → Coord
  | seq : List ℚ → Coord
deriving DecidableEq

/-- The isinstance(x, Number) and isinstance(y, Number) normalization:
two scalars are wrapped into singleton lists; two sequences pass through;
a scalar mixed with a sequence is none, modelling the TypeError Python
raises when zip reaches the non-iterable value. -/
def normalizeXY : Coord → Coord → Option (List ℚ × List ℚ)
  | .num a, .num b => some ([a], [b])
  | .seq a, .seq b => some (a, b)
  | _, _ => none

/-- The external ISIS tools, supplied as oracles.  An error value models
a ProcessError carrying that stderr text. -/
structure IsisOracle where
  mappt : MapptCall → Except String ResultDict
  campt : CamptCall → Except String (List GroundPoint)

/-- Builds the mappt argument record for one point. -/
def mkMapptCall (cube : Cube) (pt : String) (allow : Bool) (a b : ℚ) : MapptCall :=
  ⟨cube, a, b, pt, allow⟩

/-- Builds the campt argument record for one coordinate-list file. -/
def mkCamptCall (cube : Cube) (pt : String) (allow : Bool)
    (pts : List (ℚ × ℚ)) : CamptCall :=
  ⟨cube, pts, allow, pt⟩

/-- The np.add(v, .5) conversion applied to image-space inputs; ground
inputs pass through unchanged. -/
def adjustIn (pt : String) (vs : List ℚ) : List ℚ :=
  if pt = "image" then vs.map (fun v => v + 1/2) else vs

/-- The per-point loop of the projected branch: each point is sent to
mappt; on the first ProcessError the accumulated results are dropped and
the loop yields none (Python prints the diagnostic and returns None).
The second component is the list of invocations actually performed. -/
def projLoop (isis : IsisOracle) (cube : Cube) (pt : String) (allow : Bool) :
    List (ℚ × ℚ) → Option (List ResultDict) × List Invocation
  | [] => (some [], [])
  | p :: rest =>
    match isis.mappt (mkMapptCall cube pt allow p.1 p.2) with
    | .error _ => (none, [.mappt (mkMapptCall cube pt allow p.1 p.2)])
    | .ok d =>
      ((projLoop isis cube pt allow rest).1.map (fun l => d :: l),
       .mappt (mkMapptCall cube pt allow p.1 p.2) :: (projLoop isis cube pt allow rest).2)

/-- The projected branch: run the per-point loop, then collapse a
length-one result list to its single element. -/
def projBranch (isis : IsisOracle) (cube : Cube) (pt : String) (allow : Bool)
    (xs ys : List ℚ) : Except PyExc PointInfoRet × List Invocation :=
  match projLoop isis cube pt allow (xs.zip ys) with
  | (none, log) => (.ok .noneVal, log)
  | (some [d], log) => (.ok (.single d), log)
  | (some ds, log) => (.ok (.multi ds), log)

/-- Subtracts 0.5 from the Sample and Line fields of one block, the
ISIS-to-PLIO pixel conversion. -/
def adjustGP (gp : GroundPoint) : GroundPoint :=
  ⟨gp.sample - 1/2, gp.line - 1/2, gp.error, gp.extra⟩

/-- The loop over the blocks of a multi-point campt response: the first
block whose Error field is non-null raises a ProcessError carrying it;
otherwise each block has 0.5 subtracted from Sample and Line and is
converted to a dict. -/
def unprojCollect : List GroundPoint → Except PyExc (List ResultDict)
  | [] => .ok []
  | gp :: rest =>
    match gp.error with
    | some e => .error (.processError e)
    | none =>
      match unprojCollect rest with
      | .error e => .error e
      | .ok l => .ok ((adjustGP gp).toDict :: l)

/-- The first column of the coordinate-list file: for ground queries the
x and y sequences are swapped before writing, so the y values (latitudes)
come first. -/
def swapXs (pt : String) (xs ys : List ℚ) : List ℚ :=
  if pt = "ground" then ys else xs

/-- The second column of the coordinate-list file. -/
def swapYs (pt : String) (xs ys : List ℚ) : List ℚ :=
  if pt = "ground" then xs else ys

/-- The unprojected branch after the ground swap: one campt invocation
on the zipped coordinate list; a ProcessError becomes a warned None
return; a multi-point input iterates the blocks; a single-point input
reads the first GroundPoint block (a missing block is the KeyError of
indexing the parsed response). -/
def unprojAfter (isis : IsisOracle) (cube : Cube) (pt : String) (allow : Bool)
    (xs1 ys1 : List ℚ) : Except PyExc PointInfoRet × List Invocation :=
  match isis.campt (mkCamptCall cube pt allow (xs1.zip ys1)) with
  | .error _ => (.ok .noneVal, [.campt (mkCamptCall cube pt allow (xs1.zip ys1))])
  | .ok blocks =>
    if 1 < xs1.length ∧ 1 < ys1.length then
      match unprojCollect blocks with
      | .error e => (.error e, [.campt (mkCamptCall cube pt allow (xs1.zip ys1))])
      | .ok ds => (.ok (.multi ds), [.campt (mkCamptCall cube pt allow (xs1.zip ys1))])
    else
      match blocks.head? with
      | none => (.error (.keyError "GroundPoint"),
                 [.campt (mkCamptCall cube pt allow (xs1.zip ys1))])
      | some gp =>
        match gp.error with
        | some e => (.error (.processError e),
                     [.campt (mkCamptCall cube pt allow (xs1.zip ys1))])
        | none => (.ok (.single (adjustGP gp).toDict),
                   [.campt (mkCamptCall cube pt allow (xs1.zip ys1))])

/-- The unprojected branch: swap columns for ground queries, then run
the campt call on the resulting coordinate list. -/
def unprojBranch (isis : IsisOracle) (cube : Cube) (pt : String) (allow : Bool)
    (xs ys : List ℚ) : Except PyExc PointInfoRet × List Invocation :=
  unprojAfter isis cube pt allow (swapXs pt xs ys) (swapYs pt xs ys)

/-- The point_info adapter of pysis/sugar.py.  The point type is
lowercased and validated, the inputs are normalized, image-space inputs
get 0.5 added, and the projected or unprojected branch runs according to
the presence of a Mapping group in the cube label.  The second component
records every external-tool invocation in order. -/
def point_info (isis : IsisOracle) (cube : Cube) (x y : Coord)
    (point_type : String) (allow_outside : Bool) :
    Except PyExc PointInfoRet × List Invocation :=
  if lowerStr point_type = "image" ∨ lowerStr point_type = "ground" then
    match normalizeXY x y with
    | none => (.error .typeError, [])
    | some (xs0, ys0) =>
      if cube.hasMapping then
        projBranch isis cube (lowerStr point_type) allow_outside
          (adjustIn (lowerStr point_type) xs0) (adjustIn (lowerStr point_type) ys0)
      else
        unprojBranch isis cube (lowerStr point_type) allow_outside
          (adjustIn (lowerStr point_type) xs0) (adjustIn (lowerStr point_type) ys0)
  else (.error (.invalidPointType (lowerStr point_type)), [])

/-- Python v.value: a Quantity yields its magnitude, anything else
raises an AttributeError. -/
def PvlValue.valueAttr : PvlValue → Except PyExc ℚ
  | .quantity q _ => .ok q
  | _ => .error .attributeError

/-- Reads field k of one result dict; with useValue true the read is
d[k].value (the units-carrying extraction, rewrapped as a number), with
useValue false it is the plain d[k]. -/
def extractOne (useValue : Bool) (d : ResultDict) (k : String) :
    Except PyExc PvlValue :=
  match getItem d k with
  | none => .error (.keyError k)
  | some v =>
    if useValue then
      match v.valueAttr with
      | .error e => .error e
      | .ok q => .ok (.num q)
    else .ok v

/-- An output coordinate of the wrappers: a scalar for a single-point
call, an array for a multi-point call. -/
inductive ValOut where
  | scalar : PvlValue → ValOut
  | arr : List PvlValue → ValOut
deriving DecidableEq

/-- The list comprehension over a multi-result response: reads fields
kA and kB of every dict, stopping at the first raising element. -/
def extractPairs (useValue : Bool) (kA kB : String) :
    List ResultDict → Except PyExc (List (PvlValue × PvlValue))
  | [] => .ok []
  | d :: rest =>
    match extractOne useValue d kA with
    | .error e => .error e
    | .ok a =>
      match extractOne useValue d kB with
      | .error e => .error e
      | .ok b =>
        match extractPairs useValue kA kB rest with
        | .error e => .error e
        | .ok l => .ok ((a, b) :: l)

/-- One extraction attempt over a point_info return value: a list gives
the transposed pair of arrays (an empty list is the ValueError of
unpacking an empty transpose), a single dict gives two scalars, and
None gives the TypeError of subscripting None. -/
def extractRet (useValue : Bool) (r : PointInfoRet) (kA kB : String) :
    Except PyExc (ValOut × ValOut) :=
  match r with
  | .noneVal => .error .typeError
  | .single d =>
    match extractOne useValue d kA with
    | .error e => .error e
    | .ok a =>
      match extractOne useValue d kB with
      | .error e => .error e
      | .ok b => .ok (.scalar a, .scalar b)
  | .multi ds =>
    if ds.isEmpty then .error .valueError
    else
      match extractPairs useValue kA kB ds with
      | .error e => .error e
      | .ok ps => .ok (.arr (ps.map (fun p => p.1)), .arr (ps.map (fun p => p.2)))

/-- The image_to_ground wrapper: point_info with point type image and
the default allowoutside (false); the latitude and longitude fields are
first extracted expecting units-carrying values, and on any exception
the extraction is retried expecting plain values. -/
def image_to_ground (isis : IsisOracle) (cube : Cube) (sample line : Coord)
    (lattype lonttype : String) :
    Except PyExc (ValOut × ValOut) × List Invocation :=
  match point_info isis cube sample line "image" false with
  | (.error e, log) => (.error e, log)
  | (.ok r, log) =>
    match extractRet true r lattype lonttype with
    | .ok out => (.ok out, log)
    | .error _ => (extractRet false r lattype lonttype, log)

/-- The ground_to_image wrapper: point_info with point type ground and
the default allowoutside (false); the Line and Sample fields are read
plainly, and any extraction failure raises a generic Exception carrying
the raw result. -/
def ground_to_image (isis : IsisOracle) (cube : Cube) (lon lat : Coord) :
    Except PyExc (ValOut × ValOut) × List Invocation :=
  match point_info isis cube lon lat "ground" false with
  | (.error e, log) => (.error e, log)
  | (.ok r, log) =>
    match extractRet false r "Line" "Sample" with
    | .ok out => (.ok out, log)
    | .error _ => (.error (.wrappedRes r), log)

/-- Default latitude field name of image_to_ground. -/
def latKey : String := "PlanetocentricLatitude"

/-- Default longitude field name of image_to_ground. -/
def lonKey : String := "PositiveEast360Longitude"

/-- A sample ground-point block used by concrete test oracles. -/
def gpOf (s l : ℚ) : GroundPoint :=
  ⟨s, l, none,
   [(latKey, PvlValue.quantity (s + l) "degrees"),
    (lonKey, PvlValue.quantity (s * l) "degrees")]⟩

/-- A well-behaved concrete oracle: mappt echoes the coordinates it was
given, campt returns one error-free block per coordinate-list line. -/
def demoOracle : IsisOracle :=
  ⟨fun c => .ok [("Sample", PvlValue.num c.x), ("Line", PvlValue.num c.y)],
   fun c => .ok (c.coordlist.map (fun p => gpOf p.1 p.2))⟩

/-- An oracle whose every invocation exits with failure status. -/
def failOracle : IsisOracle :=
  ⟨fun _ => .error "mappt failed", fun _ => .error "campt failed"⟩

/-- An oracle whose campt marks every block with first column 0 with a
non-null ground-point Error field. -/
def errBlockOracle : IsisOracle :=
  ⟨fun _ => .error "unused",
   fun c => .ok (c.coordlist.map
     (fun p => if p.1 = 0 then ⟨p.1, p.2, some "bad point", []⟩ else gpOf p.1 p.2))⟩

/-- A projected cube: its label carries a Mapping group. -/
def projCube : Cube := ⟨true⟩

/-- An unprojected cube: no Mapping group. -/
def rawCube : Cube := ⟨false⟩

/-- An oracle whose campt response carries a non-null Error field in its
first block regardless of input. -/
def errBlockOracle2 : IsisOracle :=
  ⟨fun _ => .error "unused",
   fun _ => .ok [⟨1, 1, some "bad point", []⟩, gpOf 6 2]⟩

/-- When every point succeeds, the projected loop returns the per-point
results in input order and logs one mappt invocation per point. -/
theorem projLoop_all_ok (isis : IsisOracle) (cube : Cube) (pt : String)
    (allow : Bool) (pts : List (ℚ × ℚ)) (f : ℚ × ℚ → ResultDict)
    (h : ∀ p ∈ pts, isis.mappt (mkMapptCall cube pt allow p.1 p.2) = .ok (f p)) :
    projLoop isis cube pt allow pts =
      (some (pts.map f),
       pts.map (fun p => .mappt (mkMapptCall cube pt allow p.1 p.2))) := by
  induction pts with
  | nil => rfl
  | cons p rest ih =>
    have hp := h p (by simp)
    have hrest : ∀ q ∈ rest, isis.mappt (mkMapptCall cube pt allow q.1 q.2) = .ok (f q) := by
      intro q hq
      exact h q (by simp [hq])
    simp [projLoop, hp, ih hrest]

/-- The projected loop stops at the first failing point: when the head
point fails, the result is none and only that invocation is logged. -/
theorem projLoop_head_fail (isis : IsisOracle) (cube : Cube) (pt : String)
    (allow : Bool) (p : ℚ × ℚ) (rest : List (ℚ × ℚ)) (e : String)
    (h : isis.mappt (mkMapptCall cube pt allow p.1 p.2) = .error e) :
    projLoop isis cube pt allow (p :: rest) =
      (none, [.mappt (mkMapptCall cube pt allow p.1 p.2)]) := by
  simp [projLoop, h]

/-- Every invocation the projected loop logs carries the allow flag it
was given. -/
theorem projLoop_allow (isis : IsisOracle) (cube : Cube) (pt : String)
    (allow : Bool) (pts : List (ℚ × ℚ)) :
    ((projLoop isis cube pt allow pts).2).all
      (fun inv => inv.allowFlag == allow) = true := by
  induction pts with
  | nil => rfl
  | cons p rest ih =>
    rcases hm : isis.mappt (mkMapptCall cube pt allow p.1 p.2) with e | d
    · simp only [projLoop, hm]
      simp [Invocation.allowFlag, mkMapptCall]
    · simp only [projLoop, hm]
      simp only [List.all_cons, Bool.and_eq_true]
      constructor
      · simp [Invocation.allowFlag, mkMapptCall]
      · exact ih

/-- The projected branch logs exactly what the loop logged. -/
theorem projBranch_log (isis : IsisOracle) (cube : Cube) (pt : String)
    (allow : Bool) (xs ys : List ℚ) :
    (projBranch isis cube pt allow xs ys).2
      = (projLoop isis cube pt allow (xs.zip ys)).2 := by
  unfold projBranch
  rcases h : projLoop isis cube pt allow (xs.zip ys) with ⟨r, log⟩
  rcases r with _ | ds
  · rfl
  · rcases ds with _ | ⟨d, rest⟩
    · rfl
    · rcases rest with _ | _ <;> rfl

/-- When no block carries an error, the collection loop converts every
block, preserving order. -/
theorem unprojCollect_all_ok (blocks : List GroundPoint)
    (h : ∀ gp ∈ blocks, gp.error = none) :
    unprojCollect blocks = .ok (blocks.map (fun gp => (adjustGP gp).toDict)) := by
  induction blocks with
  | nil => rfl
  | cons gp rest ih =>
    have hgp := h gp (by simp)
    have hrest : ∀ q ∈ rest, q.error = none := by
      intro q hq
      exact h q (by simp [hq])
    simp [unprojCollect, hgp, ih hrest]

/-- When some block carries an error, the collection loop raises a
ProcessError. -/
theorem unprojCollect_err (blocks : List GroundPoint)
    (h : ∃ gp ∈ blocks, gp.error ≠ none) :
    ∃ e, unprojCollect blocks = .error (.processError e) := by
  induction blocks with
  | nil => simp at h
  | cons gp rest ih =>
    rcases hgp : gp.error with _ | e
    · rcases h with ⟨q, hq, hqe⟩
      rcases List.mem_cons.mp hq with rfl | hq2
      · exact absurd hgp hqe
      · rcases ih ⟨q, hq2, hqe⟩ with ⟨e, he⟩
        rcases hc : unprojCollect rest with e2 | l
        · rw [hc] at he
          exact ⟨e, by simp [unprojCollect, hgp, hc, ← he]⟩
        · rw [hc] at he
          simp at he
    · exact ⟨e, by simp [unprojCollect, hgp]⟩

/-- Unfolding of point_info for a valid point type and normalizable
inputs. -/
theorem point_info_eval (isis : IsisOracle) (cube : Cube) (x y : Coord)
    (s pt : String) (allow : Bool) (xs0 ys0 : List ℚ)
    (hs : lowerStr s = pt) (hpt : pt = "image" ∨ pt = "ground")
    (hn : normalizeXY x y = some (xs0, ys0)) :
    point_info isis cube x y s allow =
      if cube.hasMapping then
        projBranch isis cube pt allow (adjustIn pt xs0) (adjustIn pt ys0)
      else
        unprojBranch isis cube pt allow (adjustIn pt xs0) (adjustIn pt ys0) := by
  unfold point_info
  rw [hs, hn, if_pos hpt]

/-- Unfolding of point_info for an invalid point type. -/
theorem point_info_invalid (isis : IsisOracle) (cube : Cube) (x y : Coord)
    (s : String) (allow : Bool)
    (h1 : lowerStr s ≠ "image") (h2 : lowerStr s ≠ "ground") :
    point_info isis cube x y s allow
      = (.error (.invalidPointType (lowerStr s)), []) := by
  unfold point_info
  rw [if_neg]
  intro h
  rcases h with h | h
  · exact h1 h
  · exact h2 h

/-- The unprojected core performs exactly one campt invocation, whatever
the oracle answers. -/
theorem unprojAfter_log (isis : IsisOracle) (cube : Cube) (pt : String)
    (allow : Bool) (xs1 ys1 : List ℚ) :
    (unprojAfter isis cube pt allow xs1 ys1).2
      = [.campt (mkCamptCall cube pt allow (xs1.zip ys1))] := by
  unfold unprojAfter
  split
  · rfl
  · split
    · split <;> rfl
    · split
      · rfl
      · split <;> rfl

/-- A failing campt invocation makes the unprojected core warn and
return None. -/
theorem unprojAfter_fail (isis : IsisOracle) (cube : Cube) (pt : String)
    (allow : Bool) (xs1 ys1 : List ℚ) (e : String)
    (h : isis.campt (mkCamptCall cube pt allow (xs1.zip ys1)) = .error e) :
    (unprojAfter isis cube pt allow xs1 ys1).1 = .ok .noneVal := by
  simp [unprojAfter, h]

/-- Multi-point unprojected success: every block converted, in order. -/
theorem unprojAfter_multi_ok (isis : IsisOracle) (cube : Cube) (pt : String)
    (allow : Bool) (xs1 ys1 : List ℚ) (blocks : List GroundPoint)
    (hx : 1 < xs1.length) (hy : 1 < ys1.length)
    (hc : isis.campt (mkCamptCall cube pt allow (xs1.zip ys1)) = .ok blocks)
    (he : ∀ gp ∈ blocks, gp.error = none) :
    unprojAfter isis cube pt allow xs1 ys1
      = (.ok (.multi (blocks.map (fun gp => (adjustGP gp).toDict))),
         [.campt (mkCamptCall cube pt allow (xs1.zip ys1))]) := by
  simp [unprojAfter, hc, hx, hy, unprojCollect_all_ok blocks he]

/-- Multi-point unprojected response with an error block: the whole call
raises a ProcessError. -/
theorem unprojAfter_multi_err (isis : IsisOracle) (cube : Cube) (pt : String)
    (allow : Bool) (xs1 ys1 : List ℚ) (blocks : List GroundPoint)
    (hx : 1 < xs1.length) (hy : 1 < ys1.length)
    (hc : isis.campt (mkCamptCall cube pt allow (xs1.zip ys1)) = .ok blocks)
    (he : ∃ gp ∈ blocks, gp.error ≠ none) :
    ∃ e, (unprojAfter isis cube pt allow xs1 ys1).1
      = .error (.processError e) := by
  rcases unprojCollect_err blocks he with ⟨e, hcol⟩
  exact ⟨e, by simp [unprojAfter, hc, hx, hy, hcol]⟩

/-- Single-point unprojected success: the first block, adjusted. -/
theorem unprojAfter_single_ok (isis : IsisOracle) (cube : Cube) (pt : String)
    (allow : Bool) (xs1 ys1 : List ℚ) (gp : GroundPoint) (rest : List GroundPoint)
    (hlen : ¬ (1 < xs1.length ∧ 1 < ys1.length))
    (hc : isis.campt (mkCamptCall cube pt allow (xs1.zip ys1)) = .ok (gp :: rest))
    (he : gp.error = none) :
    unprojAfter isis cube pt allow xs1 ys1
      = (.ok (.single (adjustGP gp).toDict),
         [.campt (mkCamptCall cube pt allow (xs1.zip ys1))]) := by
  simp [unprojAfter, hc, hlen, he]

/-- The 0.5 conversion applied to one input value: image-space values
get 0.5 added, ground values pass through. -/
def adjOne (pt : String) (v : ℚ) : ℚ :=
  if pt = "image" then v + 1/2 else v

/-- The vectorized conversion is the pointwise one mapped. -/
theorem adjustIn_eq_map (pt : String) (vs : List ℚ) :
    adjustIn pt vs = vs.map (adjOne pt) := by
  have he : adjOne pt = fun v => if pt = "image" then v + 1/2 else v := rfl
  rw [he]
  by_cases h : pt = "image"
  · simp [adjustIn, h]
  · simp [adjustIn, h]

/-- Length is preserved by the 0.5 conversion. -/
theorem adjustIn_length (pt : String) (vs : List ℚ) :
    (adjustIn pt vs).length = vs.length := by
  by_cases h : pt = "image" <;> simp [adjustIn, h]

/-- The lines of the coordinate-list file the unprojected branch writes
for inputs xs, ys: the 0.5-adjusted values, column-swapped for ground. -/
def coordLines (pt : String) (xs ys : List ℚ) : List (ℚ × ℚ) :=
  (swapXs pt (adjustIn pt xs) (adjustIn pt ys)).zip
    (swapYs pt (adjustIn pt xs) (adjustIn pt ys))

/-- Reduction of point_info to the projected branch. -/
theorem point_info_proj (isis : IsisOracle) (cube : Cube) (x y : Coord)
    (s pt : String) (allow : Bool) (xs0 ys0 : List ℚ)
    (hs : lowerStr s = pt) (hpt : pt = "image" ∨ pt = "ground")
    (hn : normalizeXY x y = some (xs0, ys0)) (hmap : cube.hasMapping = true) :
    point_info isis cube x y s allow
      = projBranch isis cube pt allow (adjustIn pt xs0) (adjustIn pt ys0) := by
  rw [point_info_eval isis cube x y s pt allow xs0 ys0 hs hpt hn]
  simp [hmap]

/-- Reduction of point_info to the unprojected branch. -/
theorem point_info_unproj (isis : IsisOracle) (cube : Cube) (x y : Coord)
    (s pt : String) (allow : Bool) (xs0 ys0 : List ℚ)
    (hs : lowerStr s = pt) (hpt : pt = "image" ∨ pt = "ground")
    (hn : normalizeXY x y = some (xs0, ys0)) (hmap : cube.hasMapping = false) :
    point_info isis cube x y s allow
      = unprojAfter isis cube pt allow
          (swapXs pt (adjustIn pt xs0) (adjustIn pt ys0))
          (swapYs pt (adjustIn pt xs0) (adjustIn pt ys0)) := by
  rw [point_info_eval isis cube x y s pt allow xs0 ys0 hs hpt hn]
  simp [hmap, unprojBranch]

/-- A one-point projected call that succeeds returns the single Results
dict, unwrapped. -/
theorem projBranch_single (isis : IsisOracle) (cube : Cube) (pt : String)
    (allow : Bool) (u v : ℚ) (d : ResultDict)
    (h : isis.mappt (mkMapptCall cube pt allow u v) = .ok d) :
    projBranch isis cube pt allow [u] [v]
      = (.ok (.single d), [.mappt (mkMapptCall cube pt allow u v)]) := by
  have hall : ∀ p ∈ [(u, v)],
      isis.mappt (mkMapptCall cube pt allow p.1 p.2) = .ok ((fun _ => d) p) := by
    intro p hp
    simp only [List.mem_singleton] at hp
    subst hp
    exact h
  have hloop := projLoop_all_ok isis cube pt allow [(u, v)] (fun _ => d) hall
  unfold projBranch
  have hz : [u].zip [v] = [(u, v)] := rfl
  rw [hz, hloop]
  rfl

/-- A projected call on more than one point returns the per-point dicts
as a list, in input order. -/
theorem projBranch_multi (isis : IsisOracle) (cube : Cube) (pt : String)
    (allow : Bool) (xs ys : List ℚ) (f : ℚ × ℚ → ResultDict)
    (hlen : 1 < (xs.zip ys).length)
    (h : ∀ p ∈ xs.zip ys, isis.mappt (mkMapptCall cube pt allow p.1 p.2) = .ok (f p)) :
    projBranch isis cube pt allow xs ys
      = (.ok (.multi ((xs.zip ys).map f)),
         (xs.zip ys).map (fun p => .mappt (mkMapptCall cube pt allow p.1 p.2))) := by
  have hloop := projLoop_all_ok isis cube pt allow (xs.zip ys) f h
  unfold projBranch
  rw [hloop]
  rcases hz : xs.zip ys with _ | ⟨p1, rest⟩
  · rw [hz] at hlen
    simp at hlen
  · rcases rest with _ | ⟨p2, rest2⟩
    · rw [hz] at hlen
      simp at hlen
    · rfl

/-- When every field read succeeds, the extraction comprehension returns
the per-dict pairs in order. -/
theorem extractPairs_all_ok (useValue : Bool) (kA kB : String)
    (ds : List ResultDict) (fa fb : ResultDict → PvlValue)
    (h : ∀ d ∈ ds, extractOne useValue d kA = .ok (fa d) ∧
                   extractOne useValue d kB = .ok (fb d)) :
    extractPairs useValue kA kB ds = .ok (ds.map (fun d => (fa d, fb d))) := by
  induction ds with
  | nil => rfl
  | cons d rest ih =>
    have hd := h d (by simp)
    have hrest : ∀ q ∈ rest, extractOne useValue q kA = .ok (fa q) ∧
        extractOne useValue q kB = .ok (fb q) := by
      intro q hq
      exact h q (by simp [hq])
    simp [extractPairs, hd.1, hd.2, ih hrest]

/-- The unprojected branch logs its single campt invocation. -/
theorem unprojBranch_log (isis : IsisOracle) (cube : Cube) (pt : String)
    (allow : Bool) (xs ys : List ℚ) :
    (unprojBranch isis cube pt allow xs ys).2
      = [.campt (mkCamptCall cube pt allow
          ((swapXs pt xs ys).zip (swapYs pt xs ys)))] :=
  unprojAfter_log isis cube pt allow (swapXs pt xs ys) (swapYs pt xs ys)

/-- Every invocation point_info performs carries the allow_outside flag
it was called with. -/
theorem point_info_allow (isis : IsisOracle) (cube : Cube) (x y : Coord)
    (s : String) (allow : Bool) :
    ((point_info isis cube x y s allow).2).all
      (fun inv => inv.allowFlag == allow) = true := by
  unfold point_info
  split
  · split
    · rfl
    · split
      · rw [projBranch_log]
        exact projLoop_allow isis cube (lowerStr s) allow _
      · rw [unprojBranch_log]
        simp [Invocation.allowFlag, mkCamptCall]
  · rfl

/-- image_to_ground performs exactly the invocations of its point_info
call. -/
theorem image_to_ground_log (isis : IsisOracle) (cube : Cube)
    (sample line : Coord) (kA kB : String) :
    (image_to_ground isis cube sample line kA kB).2
      = (point_info isis cube sample line "image" false).2 := by
  unfold image_to_ground
  rcases h : point_info isis cube sample line "image" false with ⟨r, log⟩
  rcases r with e | r
  · rfl
  · dsimp only
    split <;> rfl

/-- ground_to_image performs exactly the invocations of its point_info
call. -/
theorem ground_to_image_log (isis : IsisOracle) (cube : Cube)
    (lon lat : Coord) :
    (ground_to_image isis cube lon lat).2
      = (point_info isis cube lon lat "ground" false).2 := by
  unfold ground_to_image
  rcases h : point_info isis cube lon lat "ground" false with ⟨r, log⟩
  rcases r with e | r
  · rfl
  · dsimp only
    split <;> rfl

/-- Single-point unprojected response with an error field: the call
raises a ProcessError. -/
theorem unprojAfter_single_err (isis : IsisOracle) (cube : Cube) (pt : String)
    (allow : Bool) (xs1 ys1 : List ℚ) (gp : GroundPoint) (rest : List GroundPoint)
    (e : String)
    (hlen : ¬ (1 < xs1.length ∧ 1 < ys1.length))
    (hc : isis.campt (mkCamptCall cube pt allow (xs1.zip ys1)) = .ok (gp :: rest))
    (he : gp.error = some e) :
    (unprojAfter isis cube pt allow xs1 ys1).1 = .error (.processError e) := by
  simp [unprojAfter, hc, hlen, he]

/-- A one-point projected call whose mappt invocation fails prints the
diagnostic and returns None. -/
theorem projBranch_head_fail (isis : IsisOracle) (cube : Cube) (pt : String)
    (allow : Bool) (u v : ℚ) (e : String)
    (h : isis.mappt (mkMapptCall cube pt allow u v) = .error e) :
    projBranch isis cube pt allow [u] [v]
      = (.ok .noneVal, [.mappt (mkMapptCall cube pt allow u v)]) := by
  unfold projBranch
  have hz : [u].zip [v] = [(u, v)] := rfl
  rw [hz, projLoop_head_fail isis cube pt allow (u, v) [] e h]

/-- C8: a point_type whose lowercase form is neither "image" nor
"ground" makes point_info raise immediately, with no external-tool
invocation performed; point_info depends only on the lowercased tag, so
a valid tag is accepted in any letter case, as the concrete uppercase
call demonstrates. -/
theorem C8_point_type_validation :
    (∀ (isis : IsisOracle) (cube : Cube) (x y : Coord) (s : String) (allow : Bool),
      lowerStr s ≠ "image" → lowerStr s ≠ "ground" →
      point_info isis cube x y s allow
        = (.error (.invalidPointType (lowerStr s)), [])) ∧
    (∀ (isis : IsisOracle) (cube : Cube) (x y : Coord) (allow : Bool) (s t : String),
      lowerStr s = lowerStr t →
      point_info isis cube x y s allow = point_info isis cube x y t allow) ∧
    (point_info demoOracle rawCube (.num 1) (.num 2) "IMAGE" false).1
      = .ok (.single (adjustGP (gpOf (1 + 1/2) (2 + 1/2))).toDict) := by
  refine ⟨?_, ?_, ?_⟩
  · intro isis cube x y s allow h1 h2
    exact point_info_invalid isis cube x y s allow h1 h2
  · intro isis cube x y allow s t h
    unfold point_info
    rw [h]
  · rfl

/-- Witness for C8 at the invalid tag "space" and the uppercase tag
"GROUND". -/
theorem C8_witness :
    point_info demoOracle rawCube (.num 1) (.num 2) "space" false
        = (.error (.invalidPointType "space"), []) ∧
    point_info demoOracle rawCube (.num 1) (.num 2) "GROUND" false
      = point_info demoOracle rawCube (.num 1) (.num 2) "ground" false :=
  ⟨by
      rw [C8_point_type_validation.1 demoOracle rawCube (.num 1) (.num 2) "space" false
        (by decide) (by decide)]
      rfl,
   C8_point_type_validation.2.1 demoOracle rawCube (.num 1) (.num 2) false "GROUND" "ground"
      (by decide)⟩

/-- C10: both wrappers drive point_info with allow_outside false: each
performs exactly the invocations of a point_info call with the flag
false, and every invocation performed carries allowoutside = false. -/
theorem C10_wrappers_allow_outside_false :
    (∀ (isis : IsisOracle) (cube : Cube) (a b : Coord) (kA kB : String),
      (image_to_ground isis cube a b kA kB).2
          = (point_info isis cube a b "image" false).2 ∧
      ((image_to_ground isis cube a b kA kB).2).all
          (fun inv => inv.allowFlag == false) = true) ∧
    (∀ (isis : IsisOracle) (cube : Cube) (a b : Coord),
      (ground_to_image isis cube a b).2
          = (point_info isis cube a b "ground" false).2 ∧
      ((ground_to_image isis cube a b).2).all
          (fun inv => inv.allowFlag == false) = true) := by
  constructor
  · intro isis cube a b kA kB
    refine ⟨image_to_ground_log isis cube a b kA kB, ?_⟩
    rw [image_to_ground_log]
    exact point_info_allow isis cube a b "image" false
  · intro isis cube a b
    refine ⟨ground_to_image_log isis cube a b, ?_⟩
    rw [ground_to_image_log]
    exact point_info_allow isis cube a b "ground" false

/-- C6: on n input points with a valid point type, a projected cube
dispatches one mappt invocation per point, in input order (n invocations
when every call succeeds), while an unprojected cube dispatches exactly
one campt invocation for the whole batch. -/
theorem C6_invocations_per_branch :
    (∀ (isis : IsisOracle) (cube : Cube) (s pt : String) (xs ys : List ℚ)
        (allow : Bool) (f : ℚ × ℚ → ResultDict),
      lowerStr s = pt → (pt = "image" ∨ pt = "ground") →
      cube.hasMapping = true → xs.length = ys.length →
      (∀ p ∈ (adjustIn pt xs).zip (adjustIn pt ys),
        isis.mappt (mkMapptCall cube pt allow p.1 p.2) = .ok (f p)) →
      (point_info isis cube (.seq xs) (.seq ys) s allow).2
          = ((adjustIn pt xs).zip (adjustIn pt ys)).map
              (fun p => .mappt (mkMapptCall cube pt allow p.1 p.2)) ∧
      (point_info isis cube (.seq xs) (.seq ys) s allow).2.length = xs.length) ∧
    (∀ (isis : IsisOracle) (cube : Cube) (s pt : String) (xs ys : List ℚ)
        (allow : Bool),
      lowerStr s = pt → (pt = "image" ∨ pt = "ground") →
      cube.hasMapping = false →
      (point_info isis cube (.seq xs) (.seq ys) s allow).2
        = [.campt (mkCamptCall cube pt allow (coordLines pt xs ys))]) := by
  constructor
  · intro isis cube s pt xs ys allow f hs hpt hmap hxy h
    rw [point_info_proj isis cube (.seq xs) (.seq ys) s pt allow xs ys hs hpt rfl hmap]
    rw [projBranch_log]
    rw [projLoop_all_ok isis cube pt allow ((adjustIn pt xs).zip (adjustIn pt ys)) f h]
    constructor
    · rfl
    · rw [List.length_map, List.length_zip, adjustIn_length, adjustIn_length, hxy,
        min_self]
  · intro isis cube s pt xs ys allow hs hpt hmap
    rw [point_info_unproj isis cube (.seq xs) (.seq ys) s pt allow xs ys hs hpt rfl hmap]
    exact unprojAfter_log isis cube pt allow _ _

/-- Witness for C6: two ground points against the demo oracle, on the
projected and the unprojected cube. -/
theorem C6_witness :
    ((point_info demoOracle projCube (.seq [1, 2]) (.seq [3, 4]) "ground" false).2
        = ((adjustIn "ground" [1, 2]).zip (adjustIn "ground" [3, 4])).map
            (fun p => .mappt (mkMapptCall projCube "ground" false p.1 p.2)) ∧
      (point_info demoOracle projCube (.seq [1, 2]) (.seq [3, 4]) "ground" false).2.length
        = 2) ∧
    (point_info demoOracle rawCube (.seq [1, 2]) (.seq [3, 4]) "ground" false).2
      = [.campt (mkCamptCall rawCube "ground" false (coordLines "ground" [1, 2] [3, 4]))] :=
  ⟨C6_invocations_per_branch.1 demoOracle projCube "ground" "ground" [1, 2] [3, 4] false
      (fun p => [("Sample", PvlValue.num p.1), ("Line", PvlValue.num p.2)])
      (by decide) (by decide) rfl rfl
      ((List.forall_mem_cons).mpr ⟨rfl,
        (List.forall_mem_cons).mpr ⟨rfl, List.forall_mem_nil _⟩⟩),
   C6_invocations_per_branch.2 demoOracle rawCube "ground" "ground" [1, 2] [3, 4] false
      (by decide) (by decide) rfl⟩

/-- C7: the unprojected branch writes one coordinate-list line per
point, in input order; for ground queries the columns are (y, x),
latitude then longitude, and for image queries they are (x, y), sample
then line (carrying the 0.5 shift applied to image-space inputs). -/
theorem C7_coordlist_columns :
    (∀ (isis : IsisOracle) (cube : Cube) (s : String) (xs ys : List ℚ) (allow : Bool),
      lowerStr s = "ground" → cube.hasMapping = false → xs.length = ys.length →
      (point_info isis cube (.seq xs) (.seq ys) s allow).2
          = [.campt (mkCamptCall cube "ground" allow (ys.zip xs))] ∧
      (ys.zip xs).length = xs.length) ∧
    (∀ (isis : IsisOracle) (cube : Cube) (s : String) (xs ys : List ℚ) (allow : Bool),
      lowerStr s = "image" → cube.hasMapping = false → xs.length = ys.length →
      (point_info isis cube (.seq xs) (.seq ys) s allow).2
          = [.campt (mkCamptCall cube "image" allow
              ((xs.map (fun v => v + 1/2)).zip (ys.map (fun v => v + 1/2))))] ∧
      ((xs.map (fun v => v + 1/2)).zip (ys.map (fun v => v + 1/2))).length
        = xs.length) := by
  constructor
  · intro isis cube s xs ys allow hs hmap hxy
    constructor
    · rw [point_info_unproj isis cube (.seq xs) (.seq ys) s "ground" allow xs ys hs
        (Or.inr rfl) rfl hmap]
      exact unprojAfter_log isis cube "ground" allow _ _
    · rw [List.length_zip, hxy, min_self]
  · intro isis cube s xs ys allow hs hmap hxy
    constructor
    · rw [point_info_unproj isis cube (.seq xs) (.seq ys) s "image" allow xs ys hs
        (Or.inl rfl) rfl hmap]
      exact unprojAfter_log isis cube "image" allow _ _
    · rw [List.length_zip, List.length_map, List.length_map, hxy, min_self]

/-- Witness for C7: two points in each point type on the unprojected
cube. -/
theorem C7_witness :
    (point_info demoOracle rawCube (.seq [1, 2]) (.seq [3, 4]) "ground" false).2
        = [.campt (mkCamptCall rawCube "ground" false ([3, 4].zip [1, 2]))] ∧
    (point_info demoOracle rawCube (.seq [1, 2]) (.seq [3, 4]) "image" false).2
        = [.campt (mkCamptCall rawCube "image" false
            (([1, 2].map (fun v => v + 1/2)).zip ([3, 4].map (fun v => v + 1/2))))] :=
  ⟨(C7_coordlist_columns.1 demoOracle rawCube "ground" [1, 2] [3, 4] false
      (by decide) rfl rfl).1,
   (C7_coordlist_columns.2 demoOracle rawCube "image" [1, 2] [3, 4] false
      (by decide) rfl rfl).1⟩

/-- C1 fails on the code: in the projected branch the Sample and Line
fields of the response are returned exactly as the tool produced them,
with no 0.5 subtracted, even though 0.5 was added to the dispatched
coordinates; a returned Sample of 1 + 1/2 differs from the value
(1 + 1/2) - 1/2 the claim requires. -/
theorem C1_counterexample :
    point_info demoOracle projCube (.num 1) (.num 2) "image" false
        = (.ok (.single [("Sample", PvlValue.num (1 + 1/2)),
                         ("Line", PvlValue.num (2 + 1/2))]),
           [.mappt (mkMapptCall projCube "image" false (1 + 1/2) (2 + 1/2))]) ∧
    demoOracle.mappt (mkMapptCall projCube "image" false (1 + 1/2) (2 + 1/2))
        = .ok [("Sample", PvlValue.num (1 + 1/2)),
               ("Line", PvlValue.num (2 + 1/2))] ∧
    ((1 : ℚ) + 1/2) ≠ ((1 + 1/2) - 1/2) := by
  refine ⟨rfl, rfl, ?_⟩
  norm_num

/-- C1 amended: when point_type is Image, 0.5 is added to every x and y
before dispatch in both branches; the 0.5 subtraction on returned Sample
and Line is applied only in the unprojected branch (for single- and
multi-result responses alike), while the projected branch returns the
tool's Results dicts unmodified. -/
theorem C1_amended_half_pixel_conversion :
    (∀ (isis : IsisOracle) (cube : Cube) (s : String) (a b : ℚ) (d : ResultDict),
      lowerStr s = "image" → cube.hasMapping = true →
      isis.mappt (mkMapptCall cube "image" false (a + 1/2) (b + 1/2)) = .ok d →
      point_info isis cube (.num a) (.num b) s false
        = (.ok (.single d),
           [.mappt (mkMapptCall cube "image" false (a + 1/2) (b + 1/2))])) ∧
    (∀ (isis : IsisOracle) (cube : Cube) (s : String) (a b : ℚ)
        (gp : GroundPoint) (rest : List GroundPoint),
      lowerStr s = "image" → cube.hasMapping = false →
      isis.campt (mkCamptCall cube "image" false [(a + 1/2, b + 1/2)])
        = .ok (gp :: rest) →
      gp.error = none →
      (point_info isis cube (.num a) (.num b) s false).1
        = .ok (.single (adjustGP gp).toDict)) ∧
    (∀ (isis : IsisOracle) (cube : Cube) (s : String) (xs ys : List ℚ)
        (blocks : List GroundPoint),
      lowerStr s = "image" → cube.hasMapping = false →
      1 < xs.length → 1 < ys.length →
      isis.campt (mkCamptCall cube "image" false
          ((xs.map (fun v => v + 1/2)).zip (ys.map (fun v => v + 1/2))))
        = .ok blocks →
      (∀ gp ∈ blocks, gp.error = none) →
      (point_info isis cube (.seq xs) (.seq ys) s false).1
        = .ok (.multi (blocks.map (fun gp => (adjustGP gp).toDict)))) ∧
    (∀ gp : GroundPoint,
      (adjustGP gp).sample = gp.sample - 1/2 ∧ (adjustGP gp).line = gp.line - 1/2) := by
  refine ⟨?_, ?_, ?_, ?_⟩
  · intro isis cube s a b d hs hmap hm
    rw [point_info_proj isis cube (.num a) (.num b) s "image" false [a] [b] hs
      (Or.inl rfl) rfl hmap]
    exact projBranch_single isis cube "image" false (a + 1/2) (b + 1/2) d hm
  · intro isis cube s a b gp rest hs hmap hc he
    rw [point_info_unproj isis cube (.num a) (.num b) s "image" false [a] [b] hs
      (Or.inl rfl) rfl hmap]
    rw [unprojAfter_single_ok isis cube "image" false
      (swapXs "image" (adjustIn "image" [a]) (adjustIn "image" [b]))
      (swapYs "image" (adjustIn "image" [a]) (adjustIn "image" [b]))
      gp rest (by simp [swapXs, swapYs, adjustIn]) hc he]
  · intro isis cube s xs ys blocks hs hmap hx hy hc he
    rw [point_info_unproj isis cube (.seq xs) (.seq ys) s "image" false xs ys hs
      (Or.inl rfl) rfl hmap]
    have hx1 : 1 < (swapXs "image" (adjustIn "image" xs) (adjustIn "image" ys)).length := by
      simpa [swapXs, adjustIn] using hx
    have hy1 : 1 < (swapYs "image" (adjustIn "image" xs) (adjustIn "image" ys)).length := by
      simpa [swapYs, adjustIn] using hy
    rw [unprojAfter_multi_ok isis cube "image" false _ _ blocks hx1 hy1 hc he]
  · intro gp
    exact ⟨rfl, rfl⟩

/-- Witness for the amended C1: one image point on the projected cube,
one on the unprojected cube, and a two-point batch on the unprojected
cube, all against the demo oracle. -/
theorem C1_amended_witness :
    point_info demoOracle projCube (.num 1) (.num 2) "image" false
        = (.ok (.single [("Sample", PvlValue.num (1 + 1/2)),
                         ("Line", PvlValue.num (2 + 1/2))]),
           [.mappt (mkMapptCall projCube "image" false (1 + 1/2) (2 + 1/2))]) ∧
    (point_info demoOracle rawCube (.num 1) (.num 2) "image" false).1
        = .ok (.single (adjustGP (gpOf (1 + 1/2) (2 + 1/2))).toDict) ∧
    (point_info demoOracle rawCube (.seq [1, 2]) (.seq [3, 4]) "image" false).1
        = .ok (.multi ([gpOf (1 + 1/2) (3 + 1/2), gpOf (2 + 1/2) (4 + 1/2)].map
            (fun gp => (adjustGP gp).toDict))) :=
  ⟨C1_amended_half_pixel_conversion.1 demoOracle projCube "image" 1 2
      [("Sample", PvlValue.num (1 + 1/2)), ("Line", PvlValue.num (2 + 1/2))]
      (by decide) rfl rfl,
   C1_amended_half_pixel_conversion.2.1 demoOracle rawCube "image" 1 2
      (gpOf (1 + 1/2) (2 + 1/2)) [] (by decide) rfl rfl rfl,
   C1_amended_half_pixel_conversion.2.2.1 demoOracle rawCube "image" [1, 2] [3, 4]
      [gpOf (1 + 1/2) (3 + 1/2), gpOf (2 + 1/2) (4 + 1/2)]
      (by decide) rfl (by decide) (by decide) rfl
      ((List.forall_mem_cons).mpr ⟨rfl,
        (List.forall_mem_cons).mpr ⟨rfl, List.forall_mem_nil _⟩⟩)⟩

/-- C4 fails on the code: when the external tool exits with failure
status, point_info prints or warns and returns None to the caller
instead of reporting a failure.  The log shows the invocation did
happen, and the outcome is a plain None return, not an exception. -/
theorem C4_counterexample :
    point_info failOracle rawCube (.num 1) (.num 2) "ground" false
        = (.ok .noneVal, [.campt (mkCamptCall rawCube "ground" false [(2, 1)])]) ∧
    point_info failOracle projCube (.num 1) (.num 2) "ground" false
        = (.ok .noneVal, [.mappt (mkMapptCall projCube "ground" false 1 2)]) :=
  ⟨rfl, rfl⟩

/-- C4 amended: on an external-tool invocation failure, point_info
emits a diagnostic and returns None to the caller; no exception is
raised.  This holds for the single campt call of the unprojected branch
and for a failing first mappt call of the projected branch. -/
theorem C4_amended_tool_failure_returns_none :
    (∀ (isis : IsisOracle) (cube : Cube) (s pt : String) (xs ys : List ℚ) (e : String),
      lowerStr s = pt → (pt = "image" ∨ pt = "ground") → cube.hasMapping = false →
      isis.campt (mkCamptCall cube pt false (coordLines pt xs ys)) = .error e →
      (point_info isis cube (.seq xs) (.seq ys) s false).1 = .ok .noneVal) ∧
    (∀ (isis : IsisOracle) (cube : Cube) (s pt : String) (a b : ℚ) (e : String),
      lowerStr s = pt → (pt = "image" ∨ pt = "ground") → cube.hasMapping = true →
      isis.mappt (mkMapptCall cube pt false (adjOne pt a) (adjOne pt b)) = .error e →
      (point_info isis cube (.num a) (.num b) s false).1 = .ok .noneVal) := by
  constructor
  · intro isis cube s pt xs ys e hs hpt hmap hc
    rw [point_info_unproj isis cube (.seq xs) (.seq ys) s pt false xs ys hs hpt rfl hmap]
    exact unprojAfter_fail isis cube pt false _ _ e hc
  · intro isis cube s pt a b e hs hpt hmap hm
    rw [point_info_proj isis cube (.num a) (.num b) s pt false [a] [b] hs hpt rfl hmap]
    rw [adjustIn_eq_map, adjustIn_eq_map]
    rw [show List.map (adjOne pt) [a] = [adjOne pt a] from rfl,
        show List.map (adjOne pt) [b] = [adjOne pt b] from rfl]
    rw [projBranch_head_fail isis cube pt false (adjOne pt a) (adjOne pt b) e hm]

/-- Witness for the amended C4 against the always-failing oracle. -/
theorem C4_amended_witness :
    (point_info failOracle rawCube (.seq [1, 2]) (.seq [3, 4]) "ground" false).1
        = .ok .noneVal ∧
    (point_info failOracle projCube (.num 1) (.num 2) "image" false).1
        = .ok .noneVal :=
  ⟨C4_amended_tool_failure_returns_none.1 failOracle rawCube "ground" "ground"
      [1, 2] [3, 4] "campt failed" (by decide) (by decide) rfl rfl,
   C4_amended_tool_failure_returns_none.2 failOracle projCube "image" "image"
      1 2 "mappt failed" (by decide) (by decide) rfl rfl⟩

/-- C5 fails on the code: with x of length 2 and y of length 1 the call
does not raise; zip silently truncates to one point, the external tool
is invoked on the truncated coordinate list, and a single result is
returned. -/
theorem C5_counterexample :
    point_info demoOracle rawCube (.seq [1, 2]) (.seq [10]) "ground" false
      = (.ok (.single (adjustGP (gpOf 10 1)).toDict),
         [.campt (mkCamptCall rawCube "ground" false [(10, 1)])]) := rfl

/-- C5 amended: sequences of different lengths are not rejected; zip
truncates them to the shorter length and the external tool is still
invoked: once in the unprojected branch, on the truncated coordinate
list, and min(|x|, |y|) times in the projected branch when every
per-point call succeeds. -/
theorem C5_amended_silent_truncation :
    (∀ (isis : IsisOracle) (cube : Cube) (s pt : String) (xs ys : List ℚ),
      lowerStr s = pt → (pt = "image" ∨ pt = "ground") → cube.hasMapping = false →
      (point_info isis cube (.seq xs) (.seq ys) s false).2
          = [.campt (mkCamptCall cube pt false (coordLines pt xs ys))] ∧
      (coordLines pt xs ys).length = min xs.length ys.length) ∧
    (∀ (isis : IsisOracle) (cube : Cube) (s pt : String) (xs ys : List ℚ)
        (f : ℚ × ℚ → ResultDict),
      lowerStr s = pt → (pt = "image" ∨ pt = "ground") → cube.hasMapping = true →
      (∀ p ∈ (adjustIn pt xs).zip (adjustIn pt ys),
        isis.mappt (mkMapptCall cube pt false p.1 p.2) = .ok (f p)) →
      (point_info isis cube (.seq xs) (.seq ys) s false).2.length
        = min xs.length ys.length) := by
  constructor
  · intro isis cube s pt xs ys hs hpt hmap
    constructor
    · rw [point_info_unproj isis cube (.seq xs) (.seq ys) s pt false xs ys hs hpt rfl hmap]
      exact unprojAfter_log isis cube pt false _ _
    · rcases hpt with rfl | rfl
      · simp [coordLines, swapXs, swapYs, adjustIn, List.length_zip]
      · simp [coordLines, swapXs, swapYs, adjustIn, List.length_zip, Nat.min_comm]
  · intro isis cube s pt xs ys f hs hpt hmap h
    rw [point_info_proj isis cube (.seq xs) (.seq ys) s pt false xs ys hs hpt rfl hmap]
    rw [projBranch_log]
    rw [projLoop_all_ok isis cube pt false ((adjustIn pt xs).zip (adjustIn pt ys)) f h]
    rw [List.length_map, List.length_zip, adjustIn_length, adjustIn_length]

/-- Witness for the amended C5 at mismatched lengths 2 and 1. -/
theorem C5_amended_witness :
    ((point_info demoOracle rawCube (.seq [1, 2]) (.seq [10]) "ground" false).2
        = [.campt (mkCamptCall rawCube "ground" false (coordLines "ground" [1, 2] [10]))] ∧
     (coordLines "ground" [1, 2] [10]).length = min ([1, 2] : List ℚ).length ([10] : List ℚ).length) ∧
    (point_info demoOracle projCube (.seq [1, 2]) (.seq [10]) "ground" false).2.length
        = min ([1, 2] : List ℚ).length ([10] : List ℚ).length :=
  ⟨C5_amended_silent_truncation.1 demoOracle rawCube "ground" "ground" [1, 2] [10]
      (by decide) (by decide) rfl,
   C5_amended_silent_truncation.2 demoOracle projCube "ground" "ground" [1, 2] [10]
      (fun p => [("Sample", PvlValue.num p.1), ("Line", PvlValue.num p.2)])
      (by decide) (by decide) rfl
      ((List.forall_mem_cons).mpr ⟨rfl, List.forall_mem_nil _⟩)⟩

/-- C2: a scalar (x, y) input yields a single result mapping, not a
sequence, in both branches; equal-length sequence inputs of length
greater than one yield a sequence of exactly that many result mappings,
in input order, in both branches. -/
theorem C2_result_cardinality :
    (∀ (isis : IsisOracle) (cube : Cube) (s pt : String) (a b : ℚ) (d : ResultDict),
      lowerStr s = pt → (pt = "image" ∨ pt = "ground") → cube.hasMapping = true →
      isis.mappt (mkMapptCall cube pt false (adjOne pt a) (adjOne pt b)) = .ok d →
      (point_info isis cube (.num a) (.num b) s false).1 = .ok (.single d)) ∧
    (∀ (isis : IsisOracle) (cube : Cube) (s pt : String) (a b : ℚ)
        (gp : GroundPoint) (rest : List GroundPoint),
      lowerStr s = pt → (pt = "image" ∨ pt = "ground") → cube.hasMapping = false →
      isis.campt (mkCamptCall cube pt false (coordLines pt [a] [b])) = .ok (gp :: rest) →
      gp.error = none →
      (point_info isis cube (.num a) (.num b) s false).1
        = .ok (.single (adjustGP gp).toDict)) ∧
    (∀ (isis : IsisOracle) (cube : Cube) (s pt : String) (xs ys : List ℚ)
        (f : ℚ × ℚ → ResultDict),
      lowerStr s = pt → (pt = "image" ∨ pt = "ground") → cube.hasMapping = true →
      xs.length = ys.length → 1 < xs.length →
      (∀ p ∈ (adjustIn pt xs).zip (adjustIn pt ys),
        isis.mappt (mkMapptCall cube pt false p.1 p.2) = .ok (f p)) →
      (point_info isis cube (.seq xs) (.seq ys) s false).1
          = .ok (.multi (((adjustIn pt xs).zip (adjustIn pt ys)).map f)) ∧
      (((adjustIn pt xs).zip (adjustIn pt ys)).map f).length = xs.length) ∧
    (∀ (isis : IsisOracle) (cube : Cube) (s pt : String) (xs ys : List ℚ)
        (blocks : List GroundPoint),
      lowerStr s = pt → (pt = "image" ∨ pt = "ground") → cube.hasMapping = false →
      xs.length = ys.length → 1 < xs.length →
      isis.campt (mkCamptCall cube pt false (coordLines pt xs ys)) = .ok blocks →
      (∀ gp ∈ blocks, gp.error = none) → blocks.length = xs.length →
      (point_info isis cube (.seq xs) (.seq ys) s false).1
          = .ok (.multi (blocks.map (fun gp => (adjustGP gp).toDict))) ∧
      (blocks.map (fun gp => (adjustGP gp).toDict)).length = xs.length) := by
  refine ⟨?_, ?_, ?_, ?_⟩
  · intro isis cube s pt a b d hs hpt hmap hm
    rw [point_info_proj isis cube (.num a) (.num b) s pt false [a] [b] hs hpt rfl hmap]
    rw [adjustIn_eq_map, adjustIn_eq_map]
    rw [show List.map (adjOne pt) [a] = [adjOne pt a] from rfl,
        show List.map (adjOne pt) [b] = [adjOne pt b] from rfl]
    rw [projBranch_single isis cube pt false (adjOne pt a) (adjOne pt b) d hm]
  · intro isis cube s pt a b gp rest hs hpt hmap hc he
    rw [point_info_unproj isis cube (.num a) (.num b) s pt false [a] [b] hs hpt rfl hmap]
    rw [unprojAfter_single_ok isis cube pt false
      (swapXs pt (adjustIn pt [a]) (adjustIn pt [b]))
      (swapYs pt (adjustIn pt [a]) (adjustIn pt [b]))
      gp rest
      (by rcases hpt with rfl | rfl <;> simp [swapXs, swapYs, adjustIn]) hc he]
  · intro isis cube s pt xs ys f hs hpt hmap hxy hx h
    have hlen : 1 < ((adjustIn pt xs).zip (adjustIn pt ys)).length := by
      rw [List.length_zip, adjustIn_length, adjustIn_length, hxy, min_self]
      rw [hxy] at hx
      exact hx
    constructor
    · rw [point_info_proj isis cube (.seq xs) (.seq ys) s pt false xs ys hs hpt rfl hmap]
      rw [projBranch_multi isis cube pt false (adjustIn pt xs) (adjustIn pt ys) f hlen h]
    · rw [List.length_map, List.length_zip, adjustIn_length, adjustIn_length, hxy,
        min_self]
  · intro isis cube s pt xs ys blocks hs hpt hmap hxy hx hc he hb
    have hx1 : 1 < (swapXs pt (adjustIn pt xs) (adjustIn pt ys)).length := by
      rcases hpt with rfl | rfl <;> simp [swapXs, adjustIn_length] <;> omega
    have hy1 : 1 < (swapYs pt (adjustIn pt xs) (adjustIn pt ys)).length := by
      rcases hpt with rfl | rfl <;> simp [swapYs, adjustIn_length] <;> omega
    constructor
    · rw [point_info_unproj isis cube (.seq xs) (.seq ys) s pt false xs ys hs hpt rfl hmap]
      rw [unprojAfter_multi_ok isis cube pt false _ _ blocks hx1 hy1 hc he]
    · rw [List.length_map]
      exact hb

/-- Witness for C2: scalar and two-point ground calls against the demo
oracle, on the projected and the unprojected cube. -/
theorem C2_witness :
    (point_info demoOracle projCube (.num 1) (.num 2) "ground" false).1
        = .ok (.single [("Sample", PvlValue.num 1), ("Line", PvlValue.num 2)]) ∧
    (point_info demoOracle rawCube (.num 1) (.num 2) "ground" false).1
        = .ok (.single (adjustGP (gpOf 2 1)).toDict) ∧
    (point_info demoOracle projCube (.seq [1, 2]) (.seq [3, 4]) "ground" false).1
        = .ok (.multi (((adjustIn "ground" [1, 2]).zip (adjustIn "ground" [3, 4])).map
            (fun p => [("Sample", PvlValue.num p.1), ("Line", PvlValue.num p.2)]))) ∧
    (point_info demoOracle rawCube (.seq [1, 2]) (.seq [3, 4]) "ground" false).1
        = .ok (.multi ([gpOf 3 1, gpOf 4 2].map (fun gp => (adjustGP gp).toDict))) :=
  ⟨C2_result_cardinality.1 demoOracle projCube "ground" "ground" 1 2
      [("Sample", PvlValue.num 1), ("Line", PvlValue.num 2)]
      (by decide) (by decide) rfl rfl,
   C2_result_cardinality.2.1 demoOracle rawCube "ground" "ground" 1 2 (gpOf 2 1) []
      (by decide) (by decide) rfl rfl rfl,
   (C2_result_cardinality.2.2.1 demoOracle projCube "ground" "ground" [1, 2] [3, 4]
      (fun p => [("Sample", PvlValue.num p.1), ("Line", PvlValue.num p.2)])
      (by decide) (by decide) rfl rfl (by decide)
      ((List.forall_mem_cons).mpr ⟨rfl,
        (List.forall_mem_cons).mpr ⟨rfl, List.forall_mem_nil _⟩⟩)).1,
   (C2_result_cardinality.2.2.2 demoOracle rawCube "ground" "ground" [1, 2] [3, 4]
      [gpOf 3 1, gpOf 4 2]
      (by decide) (by decide) rfl rfl (by decide) rfl
      ((List.forall_mem_cons).mpr ⟨rfl,
        (List.forall_mem_cons).mpr ⟨rfl, List.forall_mem_nil _⟩⟩) rfl).1⟩

/-- C3: in an unprojected batch call, a non-null Error field in any
response block makes the whole call raise a ProcessError; no partial or
mixed-success result is returned. -/
theorem C3_batch_error_aborts :
    ∀ (isis : IsisOracle) (cube : Cube) (s pt : String) (xs ys : List ℚ)
      (blocks : List GroundPoint),
      lowerStr s = pt → (pt = "image" ∨ pt = "ground") → cube.hasMapping = false →
      1 < xs.length → 1 < ys.length →
      isis.campt (mkCamptCall cube pt false (coordLines pt xs ys)) = .ok blocks →
      (∃ gp ∈ blocks, gp.error ≠ none) →
      ∃ e, (point_info isis cube (.seq xs) (.seq ys) s false).1
        = .error (.processError e) := by
  intro isis cube s pt xs ys blocks hs hpt hmap hx hy hc he
  rw [point_info_unproj isis cube (.seq xs) (.seq ys) s pt false xs ys hs hpt rfl hmap]
  have hx1 : 1 < (swapXs pt (adjustIn pt xs) (adjustIn pt ys)).length := by
    rcases hpt with rfl | rfl <;> simp [swapXs, adjustIn_length] <;> omega
  have hy1 : 1 < (swapYs pt (adjustIn pt xs) (adjustIn pt ys)).length := by
    rcases hpt with rfl | rfl <;> simp [swapYs, adjustIn_length] <;> omega
  exact unprojAfter_multi_err isis cube pt false _ _ blocks hx1 hy1 hc he

/-- Witness for C3 against the oracle whose first response block carries
a non-null Error field. -/
theorem C3_witness :
    ∃ e, (point_info errBlockOracle2 rawCube (.seq [1, 2]) (.seq [10, 20]) "ground" false).1
      = .error (.processError e) :=
  C3_batch_error_aborts errBlockOracle2 rawCube "ground" "ground" [1, 2] [10, 20]
    [⟨1, 1, some "bad point", []⟩, gpOf 6 2]
    (by decide) (by decide) rfl (by decide) (by decide) rfl
    ⟨⟨1, 1, some "bad point", []⟩, List.mem_cons_self _ _, by decide⟩

/-- The magnitude stored in a units-carrying field, used to express
extraction results. -/
def qtyVal (d : ResultDict) (k : String) : ℚ :=
  match getItem d k with
  | some (.quantity q _) => q
  | _ => 0

/-- The unit string stored in a units-carrying field. -/
def qtyUnit (d : ResultDict) (k : String) : String :=
  match getItem d k with
  | some (.quantity _ u) => u
  | _ => ""

/-- C9: image_to_ground extracts the latitude and longitude fields by
first attempting the units-carrying read and, when that read raises,
retrying with the plain read; a multi-point result yields two arrays
order-aligned with the result list (hence with the input points), and a
single-point result yields two scalars. -/
theorem C9_field_extraction :
    (∀ (isis : IsisOracle) (cube : Cube) (sample line : Coord) (kA kB : String)
        (ds : List ResultDict) (log : List Invocation)
        (fa fb : ResultDict → ℚ) (ua ub : ResultDict → String),
      point_info isis cube sample line "image" false = (.ok (.multi ds), log) →
      ds ≠ [] →
      (∀ d ∈ ds, getItem d kA = some (.quantity (fa d) (ua d)) ∧
                 getItem d kB = some (.quantity (fb d) (ub d))) →
      image_to_ground isis cube sample line kA kB
        = (.ok (.arr (ds.map (fun d => .num (fa d))),
                .arr (ds.map (fun d => .num (fb d)))), log)) ∧
    (∀ (isis : IsisOracle) (cube : Cube) (sample line : Coord) (kA kB : String)
        (d : ResultDict) (log : List Invocation) (qa qb : ℚ) (ua ub : String),
      point_info isis cube sample line "image" false = (.ok (.single d), log) →
      getItem d kA = some (.quantity qa ua) →
      getItem d kB = some (.quantity qb ub) →
      image_to_ground isis cube sample line kA kB
        = (.ok (.scalar (.num qa), .scalar (.num qb)), log)) ∧
    (∀ (isis : IsisOracle) (cube : Cube) (sample line : Coord) (kA kB : String)
        (d : ResultDict) (log : List Invocation) (qa qb : ℚ),
      point_info isis cube sample line "image" false = (.ok (.single d), log) →
      getItem d kA = some (.num qa) →
      getItem d kB = some (.num qb) →
      image_to_ground isis cube sample line kA kB
        = (.ok (.scalar (.num qa), .scalar (.num qb)), log)) := by
  refine ⟨?_, ?_, ?_⟩
  · intro isis cube sample line kA kB ds log fa fb ua ub hres hds h
    have hone : ∀ d ∈ ds, extractOne true d kA = .ok (.num (fa d)) ∧
        extractOne true d kB = .ok (.num (fb d)) := by
      intro d hd
      rcases h d hd with ⟨hA, hB⟩
      constructor <;> simp [extractOne, hA, hB, PvlValue.valueAttr]
    have hpairs := extractPairs_all_ok true kA kB ds
      (fun d => .num (fa d)) (fun d => .num (fb d)) hone
    have hne : ds.isEmpty = false := by
      rcases ds with _ | _
      · exact absurd rfl hds
      · rfl
    simp [image_to_ground, hres, extractRet, hne, hpairs, List.map_map,
      Function.comp]
  · intro isis cube sample line kA kB d log qa qb ua ub hres hA hB
    simp [image_to_ground, hres, extractRet, extractOne, hA, hB, PvlValue.valueAttr]
  · intro isis cube sample line kA kB d log qa qb hres hA hB
    simp [image_to_ground, hres, extractRet, extractOne, hA, hB, PvlValue.valueAttr]

/-- Witness for C9: a two-point batch read through the units-carrying
path, a scalar read through the units-carrying path, and a scalar read
of plain-number fields that exercises the fallback. -/
theorem C9_witness :
    image_to_ground demoOracle rawCube (.seq [1, 2]) (.seq [3, 4]) latKey lonKey
        = (.ok (.arr ([(adjustGP (gpOf (1 + 1/2) (3 + 1/2))).toDict,
                       (adjustGP (gpOf (2 + 1/2) (4 + 1/2))).toDict].map
                  (fun d => .num (qtyVal d latKey))),
               .arr ([(adjustGP (gpOf (1 + 1/2) (3 + 1/2))).toDict,
                      (adjustGP (gpOf (2 + 1/2) (4 + 1/2))).toDict].map
                  (fun d => .num (qtyVal d lonKey)))),
           [.campt (mkCamptCall rawCube "image" false
              [(1 + 1/2, 3 + 1/2), (2 + 1/2, 4 + 1/2)])]) ∧
    image_to_ground demoOracle rawCube (.num 1) (.num 2) latKey lonKey
        = (.ok (.scalar (.num ((1 + 1/2) + (2 + 1/2))),
                .scalar (.num ((1 + 1/2) * (2 + 1/2)))),
           [.campt (mkCamptCall rawCube "image" false [(1 + 1/2, 2 + 1/2)])]) ∧
    image_to_ground demoOracle projCube (.num 1) (.num 2) "Sample" "Line"
        = (.ok (.scalar (.num (1 + 1/2)), .scalar (.num (2 + 1/2))),
           [.mappt (mkMapptCall projCube "image" false (1 + 1/2) (2 + 1/2))]) :=
  ⟨C9_field_extraction.1 demoOracle rawCube (.seq [1, 2]) (.seq [3, 4]) latKey lonKey
      [(adjustGP (gpOf (1 + 1/2) (3 + 1/2))).toDict,
       (adjustGP (gpOf (2 + 1/2) (4 + 1/2))).toDict]
      [.campt (mkCamptCall rawCube "image" false
        [(1 + 1/2, 3 + 1/2), (2 + 1/2, 4 + 1/2)])]
      (fun d => qtyVal d latKey) (fun d => qtyVal d lonKey)
      (fun d => qtyUnit d latKey) (fun d => qtyUnit d lonKey)
      rfl (List.cons_ne_nil _ _)
      ((List.forall_mem_cons).mpr ⟨⟨rfl, rfl⟩,
        (List.forall_mem_cons).mpr ⟨⟨rfl, rfl⟩, List.forall_mem_nil _⟩⟩),
   C9_field_extraction.2.1 demoOracle rawCube (.num 1) (.num 2) latKey lonKey
      (adjustGP (gpOf (1 + 1/2) (2 + 1/2))).toDict
      [.campt (mkCamptCall rawCube "image" false [(1 + 1/2, 2 + 1/2)])]
      ((1 + 1/2) + (2 + 1/2)) ((1 + 1/2) * (2 + 1/2)) "degrees" "degrees"
      rfl rfl rfl,
   C9_field_extraction.2.2 demoOracle projCube (.num 1) (.num 2) "Sample" "Line"
      [("Sample", PvlValue.num (1 + 1/2)), ("Line", PvlValue.num (2 + 1/2))]
      [.mappt (mkMapptCall projCube "image" false (1 + 1/2) (2 + 1/2))]
      (1 + 1/2) (2 + 1/2) rfl rfl rfl⟩

end Pysis
